import Mathlib

/-!
Verification of the LAB/BOLA adaptive-bitrate decision engine (dash.js fork).

The development shallowly embeds the algorithmic core of the four source
variants (the canonical implementation being the one shared by
`src/unnamed/part_000` and
`src/src/streaming/rules/abr/LABAbandonRequestsRule_same.js`):
the utility model (`calculateBolaParameters`), the per-track state
(`BolaState`, `clearBolaStateOnSeek`, `checkBolaStateStableBufferTime`),
the look-ahead quality selection (`getQualityFromBufferLevel`), and the
abandonment monitor (`shouldAbandon`).

Modelling conventions:
* JavaScript numbers are modelled as rationals (`ℚ`); the transcendental
  `Math.log` is abstracted as a parameter `ln : ℚ → ℚ` wherever the source
  calls it, so every theorem quantifying over `ln` covers the real utilities.
* `NaN` / `undefined` sentinels become `Option`; a thrown JavaScript
  exception (`TypeError` on a `null` member access, `ReferenceError` on a
  temporal-dead-zone read) becomes `JsResult.thrown`.
-/

namespace DashLAB

/-- Outcome of a JavaScript computation: a value, or a propagated exception. -/
inductive JsResult (α : Type) where
  | ok (a : α)
  | thrown
  deriving DecidableEq, Repr

/-- The `MINIMUM_BUFFER_S` from the sources. -/
def MINIMUM_BUFFER_S : ℚ := 10

/-- The `MINIMUM_BUFFER_PER_BITRATE_LEVEL_S` from the sources. -/
def MINIMUM_BUFFER_PER_BITRATE_LEVEL_S : ℚ := 2

/-- The `{gp, Vp}` record returned by `calculateBolaParameters`. -/
structure BolaParams where
  gp : ℚ
  Vp : ℚ
  deriving DecidableEq, Repr

/-- The `utilities.reduce((highestIndex, u, uIndex) => (u > utilities[highestIndex] ? uIndex : highestIndex), 0)` -/
def highestUtilityIndex (utilities : List ℚ) : ℕ :=
  utilities.enum.foldl
    (fun highestIndex p => if p.2 > utilities.getD highestIndex 0 then p.1 else highestIndex) 0

/-- The `calculateBolaParameters(stableBufferTime, bitrates, utilities)`, identical in all
four source variants.  Returns `none` exactly where the source returns `null`. -/
def calculateBolaParameters (stableBufferTime : ℚ) (bitrates utilities : List ℚ) :
    Option BolaParams :=
  let h := highestUtilityIndex utilities
  if h = 0 then
    none
  else
    let bufferTime := max stableBufferTime
      (MINIMUM_BUFFER_S + MINIMUM_BUFFER_PER_BITRATE_LEVEL_S * (bitrates.length : ℚ))
    let gp := (utilities.getD h 0 - 1) / (bufferTime / MINIMUM_BUFFER_S - 1)
    let Vp := MINIMUM_BUFFER_S / gp
    some { gp := gp, Vp := Vp }

/-- The `utilitiesFromBitrates(bitrates)`; the source maps `Math.log` over the ladder,
here abstracted by the parameter `ln`. -/
def utilitiesFromBitrates (ln : ℚ → ℚ) (bitrates : List ℚ) : List ℚ :=
  bitrates.map ln

/-- The per-track BOLA control state (the fields of the `initialState` object). -/
structure BolaState where
  bitrates : List ℚ
  utilities : List ℚ
  stableBufferTime : ℚ
  Vp : ℚ
  gp : ℚ
  lastQuality : ℕ
  placeholderBuffer : ℚ
  mostAdvancedSegmentStart : Option ℚ
  lastSegmentWasReplacement : Bool
  lastSegmentStart : Option ℚ
  lastSegmentDurationS : Option ℚ
  lastSegmentRequestTimeMs : Option ℚ
  lastSegmentFinishTimeMs : Option ℚ
  deriving DecidableEq, Repr

/-- The `clearBolaStateOnSeek(bolaState)`: resets the placeholder buffer and the
seek-bookkeeping fields (the source assigns `NaN`, modelled as `none`). -/
def clearBolaStateOnSeek (bolaState : BolaState) : BolaState :=
  { bolaState with
    placeholderBuffer := 0
    mostAdvancedSegmentStart := none
    lastSegmentWasReplacement := false
    lastSegmentStart := none
    lastSegmentDurationS := none
    lastSegmentRequestTimeMs := none
    lastSegmentFinishTimeMs := none }

/-! Quality Selection Engine (`getQualityFromBufferLevel`) -/
/-- The `bolaState.bitrates[q]` — `none` models the JavaScript `undefined` of an
out-of-range read. -/
def bitAt (bolaState : BolaState) (q : ℕ) : Option ℚ :=
  bolaState.bitrates.get? q

/-- The score `(bolaState.Vp * (bolaState.utilities[i] + bolaState.gp) - LABLevel) / bolaState.bitrates[i]`
of ladder index `i` at working buffer level `LABLevel`. -/
def scoreOf (bolaState : BolaState) (LABLevel : ℚ) (i : ℕ) : ℚ :=
  (bolaState.Vp * ((bolaState.utilities.get? i).getD 0 + bolaState.gp) - LABLevel) /
    (bitAt bolaState i).getD 0

/-- The inner `for` scan over indices `0 .. n-1`: running maximum score (`none`
models the initial `NaN`) and the index holding it.  The source accepts a new
maximum with `s >= score`, so later indices win exact ties. -/
def bestScan (bolaState : BolaState) (LABLevel : ℚ) : ℕ → Option ℚ × ℕ
  | 0 => (none, 0)
  | n + 1 =>
    let acc := bestScan bolaState LABLevel n
    let s := scoreOf bolaState LABLevel n
    match acc.1 with
    | none => (some s, n)
    | some score => if score ≤ s then (some s, n) else acc

/-- One full scoring pass: the quality index after the inner `for` loop. -/
def scorePass (bolaState : BolaState) (LABLevel : ℚ) : ℕ :=
  (bestScan bolaState LABLevel bolaState.bitrates.length).2

/-- The `while` loop of `getQualityFromBufferLevel`, with its state variables
`(prev_bitrate, bitrate, quality, LABLevel, maxIte)` made explicit.  `maxIte`
is the structural fuel: the source decrements it after each pass and breaks
once it is negative.  Returns the final `quality` together with the number of
executed passes. -/
def labGo (bolaState : BolaState) (bufferLevel throughput segmentDuration : ℚ) :
    ℕ → Option ℚ → Option ℚ → ℕ → ℚ → ℕ → ℕ × ℕ
  | 0, prev_bitrate, bitrate, quality, LABLevel, passes =>
    -- `maxIte` just went negative: the pass still executes, then the loop breaks
    if bitrate = none ∨ bitrate ≠ prev_bitrate then
      (scorePass bolaState LABLevel, passes + 1)
    else
      (quality, passes)
  | maxIte + 1, prev_bitrate, bitrate, quality, LABLevel, passes =>
    if bitrate = none ∨ bitrate ≠ prev_bitrate then
      let q := scorePass bolaState LABLevel
      let b := bitAt bolaState q
      let L := bufferLevel + (1 - b.getD 0 / throughput / 1000) * segmentDuration
      labGo bolaState bufferLevel throughput segmentDuration maxIte bitrate b q L (passes + 1)
    else
      (quality, passes)

/-- The `getQualityFromBufferLevel(bolaState, bufferLevel, throughput, segmentDuration)`:
the returned quality index. -/
def getQualityFromBufferLevel (bolaState : BolaState)
    (bufferLevel throughput segmentDuration : ℚ) : ℕ :=
  (labGo bolaState bufferLevel throughput segmentDuration
    bolaState.bitrates.length none none 0 bufferLevel 0).1

/-- Number of scoring passes the `while` loop executes. -/
def labPassCount (bolaState : BolaState)
    (bufferLevel throughput segmentDuration : ℚ) : ℕ :=
  (labGo bolaState bufferLevel throughput segmentDuration
    bolaState.bitrates.length none none 0 bufferLevel 0).2

/-- A concrete three-tier track state used to refute the monotonicity and
iteration-cap claims; its control constants agree with
`calculateBolaParameters (70/3)` on its ladder and utilities. -/
def cexState : BolaState :=
  { bitrates := [750000, 1000000, 4000000]
    utilities := [1, 4/3, 7/3]
    stableBufferTime := 70/3
    Vp := 10
    gp := 1
    lastQuality := 0
    placeholderBuffer := 0
    mostAdvancedSegmentStart := none
    lastSegmentWasReplacement := false
    lastSegmentStart := none
    lastSegmentDurationS := none
    lastSegmentRequestTimeMs := none
    lastSegmentFinishTimeMs := none }

/-! C6: the loop body as the spec's recurrence

`lookAheadLevel`/`lookAheadQuality` restate the claim's recurrence in closed
form: each pass scores at the previous working level, and the working level is
projected as `bufferLevel + (1 - chosenBitrate / throughput / 1000) * segmentDuration`.
The refinement theorem below proves the loop computes exactly this recurrence. -/
/-- Working buffer level before pass `k + 1`, per the claimed projection formula. -/
def lookAheadLevel (bolaState : BolaState)
    (bufferLevel throughput segmentDuration : ℚ) : ℕ → ℚ
  | 0 => bufferLevel
  | k + 1 => bufferLevel +
      (1 - (bitAt bolaState (scorePass bolaState
          (lookAheadLevel bolaState bufferLevel throughput segmentDuration k))).getD 0 /
        throughput / 1000) * segmentDuration

/-- Quality chosen by pass `k + 1`, per the claimed recurrence. -/
def lookAheadQuality (bolaState : BolaState)
    (bufferLevel throughput segmentDuration : ℚ) (k : ℕ) : ℕ :=
  scorePass bolaState (lookAheadLevel bolaState bufferLevel throughput segmentDuration k)

/-- The `prev_bitrate` variable as a function of the pass counter. -/
def loopPrev (bolaState : BolaState)
    (bufferLevel throughput segmentDuration : ℚ) : ℕ → Option ℚ
  | 0 => none
  | 1 => none
  | k + 2 => bitAt bolaState (lookAheadQuality bolaState bufferLevel throughput segmentDuration k)

/-- The loop state reached after `k` passes (so `maxIte` has been decremented
to `fuel`), expressed through the recurrence. -/
def labGoState (bolaState : BolaState)
    (bufferLevel throughput segmentDuration : ℚ) (fuel k : ℕ) : ℕ × ℕ :=
  labGo bolaState bufferLevel throughput segmentDuration fuel
    (loopPrev bolaState bufferLevel throughput segmentDuration k)
    (bitAt bolaState (lookAheadQuality bolaState bufferLevel throughput segmentDuration (k - 1)))
    (lookAheadQuality bolaState bufferLevel throughput segmentDuration (k - 1))
    (lookAheadLevel bolaState bufferLevel throughput segmentDuration k) k

namespace Part000

/-! Track State Store -/
/-- The `getInitialBolaState(rulesContext)` of `src/unnamed/part_000`.  This variant
has no `if (!params)` guard: when `calculateBolaParameters` returns `null`
(single effective tier) the member access `params.Vp` throws a `TypeError`,
modelled as `.thrown`. -/
def getInitialBolaState (ln : ℚ → ℚ) (stableBufferTime : ℚ) (bitrates : List ℚ) :
    JsResult BolaState :=
  let utilities0 := utilitiesFromBitrates ln bitrates
  let utilities := utilities0.map (fun u => u - utilities0.getD 0 0 + 1)
  match calculateBolaParameters stableBufferTime bitrates utilities with
  | none => .thrown
  | some params =>
      .ok (clearBolaStateOnSeek
        { bitrates := bitrates
          utilities := utilities
          stableBufferTime := stableBufferTime
          Vp := params.Vp
          gp := params.gp
          lastQuality := 0
          placeholderBuffer := 0
          mostAdvancedSegmentStart := none
          lastSegmentWasReplacement := false
          lastSegmentStart := none
          lastSegmentDurationS := none
          lastSegmentRequestTimeMs := none
          lastSegmentFinishTimeMs := none })

end Part000

/-- A track state as stored by the abandon-rule variant: either the degenerate
`BOLA_STATE_ONE_BITRATE` record (whose scoring fields are never populated) or a
fully populated `BOLA_STATE_STARTUP` record. -/
inductive AbanBolaState where
  | oneBitrate
  | active (bolaState : BolaState)
  deriving DecidableEq, Repr

namespace Abandon

/-- The `getInitialBolaState(rulesContext)` of `LABAbandonRequestsRule_same.js`,
which does guard against a `null` `params`. -/
def getInitialBolaState (ln : ℚ → ℚ) (stableBufferTime : ℚ) (bitrates : List ℚ) :
    AbanBolaState :=
  let utilities0 := utilitiesFromBitrates ln bitrates
  let utilities := utilities0.map (fun u => u - utilities0.getD 0 0 + 1)
  match calculateBolaParameters stableBufferTime bitrates utilities with
  | none => .oneBitrate
  | some params =>
      .active (clearBolaStateOnSeek
        { bitrates := bitrates
          utilities := utilities
          stableBufferTime := stableBufferTime
          Vp := params.Vp
          gp := params.gp
          lastQuality := 0
          placeholderBuffer := 0
          mostAdvancedSegmentStart := none
          lastSegmentWasReplacement := false
          lastSegmentStart := none
          lastSegmentDurationS := none
          lastSegmentRequestTimeMs := none
          lastSegmentFinishTimeMs := none })

end Abandon

/-- The `checkBolaStateStableBufferTime(bolaState, mediaType)`: retargets `Vp`/`gp`
when the configured stable buffer time changed, rescaling the placeholder
buffer iff the constants changed.  `stableBufferTime` stands for
`mediaPlayerModel.getStableBufferTime()` and `bufferLevel` for
`dashMetrics.getCurrentBufferLevel(mediaType)`.  A `null` `params` would make
`params.Vp` throw, modelled as `.thrown`. -/
def checkBolaStateStableBufferTime (bolaState : BolaState)
    (stableBufferTime bufferLevel : ℚ) : JsResult BolaState :=
  if bolaState.stableBufferTime ≠ stableBufferTime then
    match calculateBolaParameters stableBufferTime bolaState.bitrates bolaState.utilities with
    | none => .thrown
    | some params =>
      if params.Vp ≠ bolaState.Vp ∨ params.gp ≠ bolaState.gp then
        let effectiveBufferLevel := bufferLevel + bolaState.placeholderBuffer
        let effectiveBufferLevel := effectiveBufferLevel - MINIMUM_BUFFER_S
        let effectiveBufferLevel := effectiveBufferLevel * (params.Vp / bolaState.Vp)
        let effectiveBufferLevel := effectiveBufferLevel + MINIMUM_BUFFER_S
        .ok { bolaState with
              stableBufferTime := stableBufferTime
              Vp := params.Vp
              gp := params.gp
              placeholderBuffer := max 0 (effectiveBufferLevel - bufferLevel) }
      else
        .ok bolaState
  else
    .ok bolaState

/-- A concrete two-tier state whose cached constants differ from the ones a
retarget to stable buffer time 24 produces. -/
def retargetState : BolaState :=
  { bitrates := [100, 200]
    utilities := [1, 2]
    stableBufferTime := 12
    Vp := 5
    gp := 1
    lastQuality := 0
    placeholderBuffer := 3
    mostAdvancedSegmentStart := none
    lastSegmentWasReplacement := false
    lastSegmentStart := none
    lastSegmentDurationS := none
    lastSegmentRequestTimeMs := none
    lastSegmentFinishTimeMs := none }

/-! C10: the placeholder buffer never goes negative -/
/-- The operations that touch a live track state's placeholder buffer. -/
inductive BolaOp where
  | clear
  | retarget (stableBufferTime bufferLevel : ℚ)

/-- Apply one operation; a thrown retarget leaves the state as it was. -/
def applyBolaOp (bolaState : BolaState) : BolaOp → BolaState
  | .clear => clearBolaStateOnSeek bolaState
  | .retarget stableBufferTime bufferLevel =>
      match checkBolaStateStableBufferTime bolaState stableBufferTime bufferLevel with
      | .ok newState => newState
      | .thrown => bolaState

def applyBolaOps (bolaState : BolaState) (ops : List BolaOp) : BolaState :=
  ops.foldl applyBolaOp bolaState

/-- The state `Abandon.getInitialBolaState` builds for the identity utility
transform, stable buffer time 12 and ladder `[100, 200]`. -/
def createdState : BolaState :=
  { bitrates := [100, 200]
    utilities := [1, 101]
    stableBufferTime := 12
    Vp := 1/25
    gp := 250
    lastQuality := 0
    placeholderBuffer := 0
    mostAdvancedSegmentStart := none
    lastSegmentWasReplacement := false
    lastSegmentStart := none
    lastSegmentDurationS := none
    lastSegmentRequestTimeMs := none
    lastSegmentFinishTimeMs := none }

namespace Abandon

/-! Abandonment Monitor (`shouldAbandon`) -/
/-- The `ABANDON_MULTIPLIER` (source value 1.8). -/
def ABANDON_MULTIPLIER : ℚ := 18/10

/-- The `GRACE_TIME_THRESHOLD` in milliseconds. -/
def GRACE_TIME_THRESHOLD : ℚ := 500

/-- The `MIN_LENGTH_TO_AVERAGE`. -/
def MIN_LENGTH_TO_AVERAGE : ℕ := 5

/-- The per-request tracking record held in `fragmentDict[type][id]`; fields
are populated exactly as the source assigns them (`none` = still `undefined`). -/
structure FragmentInfo where
  firstByteTime : Option ℚ
  segmentDuration : ℚ
  bytesTotal : ℚ
  id : Option ℕ
  bytesLoaded : ℚ
  elapsedTime : ℚ
  measuredBandwidthInKbps : ℚ
  estimatedTimeOfDownload : ℚ
  deriving DecidableEq, Repr

/-- The fresh `{}` object `setFragmentRequestDict` installs. -/
def emptyFragmentInfo : FragmentInfo :=
  { firstByteTime := none
    segmentDuration := 0
    bytesTotal := 0
    id := none
    bytesLoaded := 0
    elapsedTime := 0
    measuredBandwidthInKbps := 0
    estimatedTimeOfDownload := 0 }

/-- The `abandonDict.hasOwnProperty(id)`: false when `id` is still `undefined`. -/
def hasOwnAbandon (abandonDict : List ℕ) : Option ℕ → Bool
  | some fid => abandonDict.contains fid
  | none => false

def lookupFrag : List (ℕ × FragmentInfo) → ℕ → Option FragmentInfo
  | [], _ => none
  | (j, fi) :: rest, i => if j = i then some fi else lookupFrag rest i

def setFrag : List (ℕ × FragmentInfo) → ℕ → FragmentInfo → List (ℕ × FragmentInfo)
  | [], i, fi => [(i, fi)]
  | (j, g) :: rest, i, fi => if j = i then (i, fi) :: rest else (j, g) :: setFrag rest i fi

def eraseFrag : List (ℕ × FragmentInfo) → ℕ → List (ℕ × FragmentInfo)
  | [], _ => []
  | (j, g) :: rest, i => if j = i then rest else (j, g) :: eraseFrag rest i

/-- The closure state of one `AbandonRequestsRule` instance, restricted to a
single media type (track states are independent per type). -/
structure MonitorState where
  fragmentDict : List (ℕ × FragmentInfo)
  abandonDict : List ℕ
  throughputArray : List ℚ
  bolaStateDict : Option AbanBolaState
  deriving DecidableEq, Repr

/-- The state `reset()` installs. -/
def resetMonitorState : MonitorState :=
  { fragmentDict := [], abandonDict := [], throughputArray := [], bolaStateDict := none }

/-- The `SwitchRequest` outcome of one `shouldAbandon` call. -/
inductive Decision where
  | noChange
  | abandonTo (fragmentID : ℕ) (quality : ℕ)
  deriving DecidableEq, Repr

/-- One progress notification together with the collaborator reads the call
performs (`req.*`, the representation quality, buffer level, configured stable
buffer time and the track's bitrate ladder). -/
structure ProgressEvent where
  hasCapabilities : Bool
  reqIndex : Option ℕ
  firstByteDate : Option ℚ
  duration : ℚ
  bytesTotal : ℚ
  bytesLoaded : ℚ
  now : ℚ
  quality : ℕ
  bufferLevel : ℚ
  stableBufferTime : ℚ
  bitrateLadder : List ℚ
  deriving DecidableEq, Repr

/-- JavaScript `Math.round` on the nonnegative values used here. -/
def jsRound (x : ℚ) : ℚ := ((⌊x + 1/2⌋ : ℤ) : ℚ)

/-- JavaScript `+(x).toFixed(2)` on the nonnegative values used here. -/
def toFixed2 (x : ℚ) : ℚ := ((⌊x * 100 + 1/2⌋ : ℤ) : ℚ) / 100

/-- The `getBolaState(rulesContext)`: the effect on `bolaStateDict[mediaType]`
(create lazily; retarget non-degenerate states).  A thrown retarget
propagates. -/
def getBolaState (ln : ℚ → ℚ) (dict : Option AbanBolaState) (ev : ProgressEvent) :
    JsResult (Option AbanBolaState) :=
  match dict with
  | none => .ok (some (getInitialBolaState ln ev.stableBufferTime ev.bitrateLadder))
  | some .oneBitrate => .ok (some .oneBitrate)
  | some (.active bolaState) =>
      match checkBolaStateStableBufferTime bolaState ev.stableBufferTime ev.bufferLevel with
      | .ok newState => .ok (some (.active newState))
      | .thrown => .thrown

/-- Lines 262–286 of the source: the abandonment test once the bandwidth
estimate exists.  In the `else if` branch the source evaluates
`bufferLevel - segmentDuration` where `segmentDuration` is a `const` declared
three lines later in the same block, so a `ReferenceError` (temporal dead
zone) propagates right after `getBolaState` has run — before anything is
written to `abandonDict`. -/
def evaluateAbandon (ln : ℚ → ℚ) (s5 : MonitorState) (fi5 : FragmentInfo)
    (ev : ProgressEvent) : MonitorState × JsResult Decision :=
  if fi5.estimatedTimeOfDownload < fi5.segmentDuration * ABANDON_MULTIPLIER ∨
      ev.quality = 0 then
    (s5, .ok .noChange)
  else if ¬hasOwnAbandon s5.abandonDict fi5.id then
    match getBolaState ln s5.bolaStateDict ev with
    | .thrown => (s5, .thrown)
    | .ok newDict => ({ s5 with bolaStateDict := newDict }, .thrown)
  else
    (s5, .ok .noChange)

/-- Lines 250–289 of the source: either enough samples have accumulated and the
abandonment test runs, or a completed request is dropped from tracking. -/
def monitorSample (ln : ℚ → ℚ) (s4 : MonitorState) (reqIndexVal : ℕ)
    (fi3 : FragmentInfo) (ev : ProgressEvent) : MonitorState × JsResult Decision :=
  if MIN_LENGTH_TO_AVERAGE ≤ s4.throughputArray.length ∧
      fi3.elapsedTime > GRACE_TIME_THRESHOLD ∧
      fi3.bytesLoaded < fi3.bytesTotal then
    let totalSampledValue := s4.throughputArray.foldl (· + ·) 0
    let fi4 := { fi3 with
      measuredBandwidthInKbps :=
        jsRound (totalSampledValue / (s4.throughputArray.length : ℚ)) }
    let fi5 := { fi4 with
      estimatedTimeOfDownload :=
        toFixed2 (fi4.bytesTotal * 8 / fi4.measuredBandwidthInKbps / 1000) }
    let s5 := { s4 with fragmentDict := setFrag s4.fragmentDict reqIndexVal fi5 }
    evaluateAbandon ln s5 fi5 ev
  else if fi3.bytesLoaded = fi3.bytesTotal then
    ({ s4 with fragmentDict :=
        match fi3.id with
        | some fid => eraseFrag s4.fragmentDict fid
        | none => s4.fragmentDict }, .ok .noChange)
  else
    (s4, .ok .noChange)

/-- Lines 236–248 of the source: first-progress initialization, byte/time
bookkeeping and the instantaneous throughput sample push. -/
def trackProgress (ln : ℚ → ℚ) (s1 : MonitorState) (reqIndexVal : ℕ)
    (fragmentInfo : FragmentInfo) (ev : ProgressEvent) :
    MonitorState × JsResult Decision :=
  let init := fragmentInfo.firstByteTime = none
  let s2 := if init then { s1 with throughputArray := [] } else s1
  let fi2 := if init then
      { fragmentInfo with
        firstByteTime := ev.firstByteDate
        segmentDuration := ev.duration
        bytesTotal := ev.bytesTotal
        id := some reqIndexVal }
    else fragmentInfo
  let fi3 := { fi2 with
    bytesLoaded := ev.bytesLoaded
    elapsedTime := ev.now - fi2.firstByteTime.getD 0 }
  let s3 := { s2 with fragmentDict := setFrag s2.fragmentDict reqIndexVal fi3 }
  let s4 := if fi3.bytesLoaded > (0 : ℚ) ∧ fi3.elapsedTime > (0 : ℚ) then
      { s3 with throughputArray :=
          s3.throughputArray ++ [jsRound (fi3.bytesLoaded * 8 / fi3.elapsedTime)] }
    else s3
  monitorSample ln s4 reqIndexVal fi3 ev

/-- The `shouldAbandon(rulesContext)` for one progress notification, returning the
updated closure state and the outcome. -/
def shouldAbandon (ln : ℚ → ℚ) (s : MonitorState) (ev : ProgressEvent) :
    MonitorState × JsResult Decision :=
  if ¬ev.hasCapabilities then (s, .ok .noChange)
  else
    match ev.reqIndex with
    | none => (s, .ok .noChange)
    | some reqIndexVal =>
      let s1 : MonitorState :=
        match lookupFrag s.fragmentDict reqIndexVal with
        | some _ => s
        | none => { s with fragmentDict := setFrag s.fragmentDict reqIndexVal emptyFragmentInfo }
      let fragmentInfo := (lookupFrag s1.fragmentDict reqIndexVal).getD emptyFragmentInfo
      if ev.firstByteDate = none ∨ hasOwnAbandon s1.abandonDict fragmentInfo.id then
        (s1, .ok .noChange)
      else
        trackProgress ln s1 reqIndexVal fragmentInfo ev

/-- Run the monitor over a sequence of notifications, collecting the outcomes. -/
def runMonitor (ln : ℚ → ℚ) : MonitorState → List ProgressEvent → MonitorState × List (JsResult Decision)
  | s, [] => (s, [])
  | s, ev :: rest =>
      let step := shouldAbandon ln s ev
      let next := runMonitor ln step.1 rest
      (next.1, step.2 :: next.2)

/-- The abandon commitments of a run: fragment id paired with the quality the
request was at when the commitment happened. -/
def commitList (ln : ℚ → ℚ) : MonitorState → List ProgressEvent → List (ℕ × ℕ)
  | _, [] => []
  | s, ev :: rest =>
      let step := shouldAbandon ln s ev
      match step.2 with
      | .ok (.abandonTo fragmentID _) => (fragmentID, ev.quality) :: commitList ln step.1 rest
      | _ => commitList ln step.1 rest

/-- A progress notification for fragment 7 of a 2 MB, 4-second segment on a
two-tier ladder, at current quality 1. -/
def crashEvent (bytesLoaded now : ℚ) : ProgressEvent :=
  { hasCapabilities := true
    reqIndex := some 7
    firstByteDate := some 0
    duration := 4
    bytesTotal := 2000000
    bytesLoaded := bytesLoaded
    now := now
    quality := 1
    bufferLevel := 8
    stableBufferTime := 12
    bitrateLadder := [500000, 1000000] }

/-- Five slow-progress notifications: the fifth accumulates the fifth
throughput sample past the 500 ms grace period with the download still far
from complete, driving the call into the abandonment-evaluation branch. -/
def crashEvents : List ProgressEvent :=
  [crashEvent 1000 100, crashEvent 2000 200, crashEvent 3000 300,
   crashEvent 4000 400, crashEvent 5000 600]

/-- A monitor state whose abandoned set already contains fragment id 7. -/
def abandonedMonitorState : MonitorState :=
  { fragmentDict := [], abandonDict := [7], throughputArray := [], bolaStateDict := none }

/-- A later notification for fragment 7. -/
def abandonedEvent : ProgressEvent := crashEvent 6000 700

end Abandon

/-! Theorems -/

/-- C2.  `calculateBolaParameters` returns exactly the closed-form constants when
the highest-utility index is nonzero, and `null` if and only if it is zero:
`gp = (utilities[h] - 1) / (bufferTime / 10 - 1)`, `Vp = 10 / gp` with
`bufferTime = max(stableBufferTime, 10 + 2 * bitrates.length)`. -/
theorem C2_calculateBolaParameters_closed_form
    (stableBufferTime : ℚ) (bitrates utilities : List ℚ) :
    (highestUtilityIndex utilities ≠ 0 →
      calculateBolaParameters stableBufferTime bitrates utilities =
        some { gp := (utilities.getD (highestUtilityIndex utilities) 0 - 1) /
                 (max stableBufferTime (10 + 2 * (bitrates.length : ℚ)) / 10 - 1),
               Vp := 10 / ((utilities.getD (highestUtilityIndex utilities) 0 - 1) /
                 (max stableBufferTime (10 + 2 * (bitrates.length : ℚ)) / 10 - 1)) }) ∧
    (calculateBolaParameters stableBufferTime bitrates utilities = none ↔
      highestUtilityIndex utilities = 0) := by
  constructor
  · intro h
    simp only [calculateBolaParameters, MINIMUM_BUFFER_S,
      MINIMUM_BUFFER_PER_BITRATE_LEVEL_S, if_neg h]
  · constructor
    · intro h
      by_contra hne
      simp only [calculateBolaParameters, MINIMUM_BUFFER_S,
        MINIMUM_BUFFER_PER_BITRATE_LEVEL_S, if_neg hne] at h
      exact Option.noConfusion h
    · intro h
      simp only [calculateBolaParameters, MINIMUM_BUFFER_S,
        MINIMUM_BUFFER_PER_BITRATE_LEVEL_S, if_pos h]

/-- Witness for C2 at a concrete four-tier ladder. -/
theorem C2_calculateBolaParameters_closed_form_witness :
    highestUtilityIndex [1, 2, 3, 4] ≠ 0 ∧
    calculateBolaParameters 12 [500000, 1000000, 2000000, 4000000] [1, 2, 3, 4] =
      some { gp := (4 - 1) / (max (12 : ℚ) (10 + 2 * 4) / 10 - 1),
             Vp := 10 / ((4 - 1) / (max (12 : ℚ) (10 + 2 * 4) / 10 - 1)) } := by
  refine ⟨by decide, ?_⟩
  have h := (C2_calculateBolaParameters_closed_form 12
    [500000, 1000000, 2000000, 4000000] [1, 2, 3, 4]).1 (by decide)
  simpa using h

/-- Evaluation of the look-ahead loop at `cexState`, buffer level 15: the loop
converges after 2 passes on quality 1. -/
theorem cex_run_15 : labGo cexState 15 1000 4 3 none none 0 15 0 = (1, 2) := by
  simp only [labGo, scorePass, bestScan, scoreOf, bitAt, cexState]
  norm_num
  simp

/-- Evaluation of the look-ahead loop at `cexState`, buffer level 20: the loop
oscillates (2, 0, 2, 0) and is stopped by the iteration cap after 4 passes,
returning quality 0. -/
theorem cex_run_20 : labGo cexState 20 1000 4 3 none none 0 20 0 = (0, 4) := by
  simp only [labGo, scorePass, bestScan, scoreOf, bitAt, cexState]
  norm_num

/-- The control constants of `cexState` agree with `calculateBolaParameters` at
stable buffer time `70/3`. -/
theorem cex_params : calculateBolaParameters (70/3) cexState.bitrates cexState.utilities =
    some { gp := 1, Vp := 10 } := by
  norm_num [calculateBolaParameters, highestUtilityIndex, cexState, List.enum,
    MINIMUM_BUFFER_S, MINIMUM_BUFFER_PER_BITRATE_LEVEL_S]

/-! The inner scan is a ties-high argmax -/
theorem bestScan_fst_eq_none (bolaState : BolaState) (LABLevel : ℚ) (n : ℕ) :
    (bestScan bolaState LABLevel n).1 = none ↔ n = 0 := by
  cases n with
  | zero => simp [bestScan]
  | succ m =>
    simp only [bestScan]
    cases h : (bestScan bolaState LABLevel m).1 with
    | none => simp
    | some sc => by_cases hle : sc ≤ scoreOf bolaState LABLevel m <;> simp [hle, h]

theorem bestScan_snd_lt (bolaState : BolaState) (LABLevel : ℚ) :
    ∀ n, 0 < n → (bestScan bolaState LABLevel n).2 < n := by
  intro n
  induction n with
  | zero => intro h; exact absurd h (lt_irrefl 0)
  | succ m ih =>
    intro _
    simp only [bestScan]
    cases h : (bestScan bolaState LABLevel m).1 with
    | none => simp
    | some sc =>
      by_cases hle : sc ≤ scoreOf bolaState LABLevel m
      · simp [hle]
      · have hm : 0 < m := by
          rcases Nat.eq_zero_or_pos m with h0 | h0
          · rw [h0] at h; simp [bestScan] at h
          · exact h0
        simpa [hle] using Nat.lt_succ_of_lt (ih hm)

theorem bestScan_fst_eq (bolaState : BolaState) (LABLevel : ℚ) :
    ∀ n, 0 < n →
      (bestScan bolaState LABLevel n).1 =
        some (scoreOf bolaState LABLevel (bestScan bolaState LABLevel n).2) := by
  intro n
  induction n with
  | zero => intro h; exact absurd h (lt_irrefl 0)
  | succ m ih =>
    intro _
    simp only [bestScan]
    cases h : (bestScan bolaState LABLevel m).1 with
    | none => simp
    | some sc =>
      have hm : 0 < m := by
        rcases Nat.eq_zero_or_pos m with h0 | h0
        · rw [h0] at h; simp [bestScan] at h
        · exact h0
      have hsc : sc = scoreOf bolaState LABLevel (bestScan bolaState LABLevel m).2 := by
        have := ih hm
        rw [h] at this
        exact Option.some.inj this
      by_cases hle : sc ≤ scoreOf bolaState LABLevel m
      · simp [hle]
      · simpa [hle, h] using hsc

theorem bestScan_le (bolaState : BolaState) (LABLevel : ℚ) :
    ∀ n i, i < n →
      scoreOf bolaState LABLevel i ≤
        scoreOf bolaState LABLevel (bestScan bolaState LABLevel n).2 := by
  intro n
  induction n with
  | zero => intro i h; exact absurd h (Nat.not_lt_zero i)
  | succ m ih =>
    intro i hi
    simp only [bestScan]
    cases h : (bestScan bolaState LABLevel m).1 with
    | none =>
      have hm : m = 0 := (bestScan_fst_eq_none bolaState LABLevel m).1 h
      have : i = 0 := by omega
      simp [this, hm]
    | some sc =>
      have hm : 0 < m := by
        rcases Nat.eq_zero_or_pos m with h0 | h0
        · rw [h0] at h; simp [bestScan] at h
        · exact h0
      have hsc : sc = scoreOf bolaState LABLevel (bestScan bolaState LABLevel m).2 := by
        have := bestScan_fst_eq bolaState LABLevel m hm
        rw [h] at this
        exact Option.some.inj this
      by_cases hle : sc ≤ scoreOf bolaState LABLevel m
      · simp only [hle, if_true]
        rcases Nat.lt_succ_iff_lt_or_eq.1 hi with hlt | heq
        · exact le_trans (ih i hlt) (hsc ▸ hle)
        · simp [heq]
      · simp only [hle, if_false]
        rcases Nat.lt_succ_iff_lt_or_eq.1 hi with hlt | heq
        · exact ih i hlt
        · rw [heq, ← hsc]; exact le_of_lt (lt_of_not_le hle)

theorem bestScan_ties_high (bolaState : BolaState) (LABLevel : ℚ) :
    ∀ n i, i < n →
      scoreOf bolaState LABLevel (bestScan bolaState LABLevel n).2 ≤
        scoreOf bolaState LABLevel i →
      i ≤ (bestScan bolaState LABLevel n).2 := by
  intro n
  induction n with
  | zero => intro i h; exact absurd h (Nat.not_lt_zero i)
  | succ m ih =>
    intro i hi hscore
    revert hscore
    simp only [bestScan]
    cases h : (bestScan bolaState LABLevel m).1 with
    | none =>
      have hm : m = 0 := (bestScan_fst_eq_none bolaState LABLevel m).1 h
      intro _
      simp only []
      omega
    | some sc =>
      have hm : 0 < m := by
        rcases Nat.eq_zero_or_pos m with h0 | h0
        · rw [h0] at h; simp [bestScan] at h
        · exact h0
      have hsc : sc = scoreOf bolaState LABLevel (bestScan bolaState LABLevel m).2 := by
        have := bestScan_fst_eq bolaState LABLevel m hm
        rw [h] at this
        exact Option.some.inj this
      by_cases hle : sc ≤ scoreOf bolaState LABLevel m
      · intro _; simp only [hle, if_true]; omega
      · simp only [hle, if_false]
        intro hscore
        rcases Nat.lt_succ_iff_lt_or_eq.1 hi with hlt | heq
        · exact ih i hlt hscore
        · exfalso
          rw [heq] at hscore
          exact hle (hsc ▸ hscore)

/-- C5.  Each scoring pass picks an argmax of
`(Vp * (utilities[i] + gp) - workingLevel) / bitrates[i]`, and exact ties are
resolved toward the higher index. -/
theorem C5_scorePass_argmax_ties_high (bolaState : BolaState) (LABLevel : ℚ)
    (h : 0 < bolaState.bitrates.length) :
    scorePass bolaState LABLevel < bolaState.bitrates.length ∧
    (∀ i < bolaState.bitrates.length,
      scoreOf bolaState LABLevel i ≤
        scoreOf bolaState LABLevel (scorePass bolaState LABLevel)) ∧
    (∀ i < bolaState.bitrates.length,
      scoreOf bolaState LABLevel i =
        scoreOf bolaState LABLevel (scorePass bolaState LABLevel) →
      i ≤ scorePass bolaState LABLevel) := by
  refine ⟨bestScan_snd_lt bolaState LABLevel _ h, ?_, ?_⟩
  · intro i hi
    exact bestScan_le bolaState LABLevel _ i hi
  · intro i hi heq
    exact bestScan_ties_high bolaState LABLevel _ i hi (le_of_eq heq.symm)

/-- Witness for C5: the scan at `cexState` and level 20 chooses index 2, the
higher of the two indices that tie for the maximal score there. -/
theorem C5_scorePass_argmax_ties_high_witness :
    0 < cexState.bitrates.length ∧
    scorePass cexState 20 < cexState.bitrates.length := by
  exact ⟨by decide, (C5_scorePass_argmax_ties_high cexState 20 (by decide)).1⟩

/-! C3: buffer-level monotonicity -/
/-- C3 counterexample: at `cexState` (ladder size 3, constants matching
`calculateBolaParameters`), throughput 1000 and segment duration 4, raising
the buffer level from 15 to 20 drops the selected quality from 1 to 0. -/
theorem C3_monotonicity_counterexample :
    (15 : ℚ) ≤ 20 ∧
    getQualityFromBufferLevel cexState 20 1000 4 <
      getQualityFromBufferLevel cexState 15 1000 4 := by
  refine ⟨by norm_num, ?_⟩
  have h15 : getQualityFromBufferLevel cexState 15 1000 4 = 1 := by
    simp [getQualityFromBufferLevel, show cexState.bitrates.length = 3 from rfl, cex_run_15]
  have h20 : getQualityFromBufferLevel cexState 20 1000 4 = 0 := by
    simp [getQualityFromBufferLevel, show cexState.bitrates.length = 3 from rfl, cex_run_20]
  rw [h15, h20]
  exact Nat.zero_lt_one

/-- C3 as amended: a single scoring pass is monotone in the working buffer
level, for any state whose ladder is strictly increasing and positive (the
full look-ahead loop is not monotone, as the counterexample shows). -/
theorem C3_single_pass_monotone (bolaState : BolaState) (L1 L2 : ℚ)
    (hpos : ∀ b ∈ bolaState.bitrates, 0 < b)
    (hsorted : bolaState.bitrates.Sorted (· < ·))
    (hle : L1 ≤ L2) :
    scorePass bolaState L1 ≤ scorePass bolaState L2 := by
  by_contra hcon
  have hc : scorePass bolaState L2 < scorePass bolaState L1 := lt_of_not_le hcon
  set c1 := scorePass bolaState L1 with hc1def
  set c2 := scorePass bolaState L2 with hc2def
  have hlen : 0 < bolaState.bitrates.length := by
    rcases Nat.eq_zero_or_pos bolaState.bitrates.length with h0 | h0
    · exfalso
      have e1 : c1 = 0 := by
        rw [hc1def, scorePass, h0]; simp [bestScan]
      have e2 : c2 = 0 := by
        rw [hc2def, scorePass, h0]; simp [bestScan]
      rw [e1, e2] at hc; exact lt_irrefl 0 hc
    · exact h0
  have hc1lt : c1 < bolaState.bitrates.length := bestScan_snd_lt bolaState L1 _ hlen
  have hc2lt : c2 < bolaState.bitrates.length := bestScan_snd_lt bolaState L2 _ hlen
  -- the chosen index at L1 beats c2 there; the chosen index at L2 strictly beats c1 there
  have H1 : scoreOf bolaState L1 c2 ≤ scoreOf bolaState L1 c1 :=
    bestScan_le bolaState L1 _ c2 hc2lt
  have H2le : scoreOf bolaState L2 c1 ≤ scoreOf bolaState L2 c2 :=
    bestScan_le bolaState L2 _ c1 hc1lt
  have H2 : scoreOf bolaState L2 c1 < scoreOf bolaState L2 c2 := by
    rcases lt_or_eq_of_le H2le with hlt | heq
    · exact hlt
    · exfalso
      have := bestScan_ties_high bolaState L2 _ c1 hc1lt (le_of_eq heq.symm)
      exact absurd hc (not_lt.2 this)
  -- extract the concrete bitrates at the two indices
  have hb1 : bitAt bolaState c1 = some (bolaState.bitrates.get ⟨c1, hc1lt⟩) :=
    List.get?_eq_get hc1lt
  have hb2 : bitAt bolaState c2 = some (bolaState.bitrates.get ⟨c2, hc2lt⟩) :=
    List.get?_eq_get hc2lt
  set b1 := bolaState.bitrates.get ⟨c1, hc1lt⟩ with hb1def
  set b2 := bolaState.bitrates.get ⟨c2, hc2lt⟩ with hb2def
  have hb1pos : 0 < b1 := hpos b1 (List.get_mem _ _ _)
  have hb2pos : 0 < b2 := hpos b2 (List.get_mem _ _ _)
  have hb21 : b2 < b1 := hsorted.rel_get_of_lt hc
  set a1 := bolaState.Vp * ((bolaState.utilities.get? c1).getD 0 + bolaState.gp) with ha1
  set a2 := bolaState.Vp * ((bolaState.utilities.get? c2).getD 0 + bolaState.gp) with ha2
  have H1' : (a2 - L1) * b1 ≤ (a1 - L1) * b2 := by
    have := H1
    rw [scoreOf, scoreOf, hb1, hb2] at this
    simp only [Option.getD_some] at this
    rw [div_le_div_iff₀ hb2pos hb1pos] at this
    exact this
  have H2' : (a1 - L2) * b2 < (a2 - L2) * b1 := by
    have := H2
    rw [scoreOf, scoreOf, hb1, hb2] at this
    simp only [Option.getD_some] at this
    rw [div_lt_div_iff₀ hb1pos hb2pos] at this
    exact this
  -- combining both inequalities forces L2 < L1
  have key : L2 * (b1 - b2) < L1 * (b1 - b2) := by nlinarith [H1', H2']
  have : L2 < L1 := (mul_lt_mul_right (sub_pos.2 hb21)).1 key
  exact absurd hle (not_le.2 this)

/-- Witness for the amended C3 at `cexState` with levels 8 ≤ 21. -/
theorem C3_single_pass_monotone_witness :
    scorePass cexState 8 ≤ scorePass cexState 21 := by
  refine C3_single_pass_monotone cexState 8 21 ?_ ?_ (by norm_num)
  · intro b hb
    fin_cases hb <;> norm_num
  · norm_num [cexState, List.sorted_cons]

/-! C4: iteration cap -/
/-- The loop performs at most `maxIte + 1` further passes from any state. -/
theorem labGo_passes_bound (bolaState : BolaState) (bufferLevel throughput segmentDuration : ℚ) :
    ∀ maxIte prev_bitrate bitrate quality LABLevel passes,
      (labGo bolaState bufferLevel throughput segmentDuration
        maxIte prev_bitrate bitrate quality LABLevel passes).2 ≤ passes + maxIte + 1 := by
  intro maxIte
  induction maxIte with
  | zero =>
    intro prev_bitrate bitrate quality LABLevel passes
    by_cases hcond : bitrate = none ∨ bitrate ≠ prev_bitrate
    · simp [labGo, hcond]
    · simp [labGo, hcond]
  | succ m ih =>
    intro prev_bitrate bitrate quality LABLevel passes
    by_cases hcond : bitrate = none ∨ bitrate ≠ prev_bitrate
    · simp only [labGo, if_pos hcond]
      exact le_trans (ih _ _ _ _ _) (by omega)
    · simp only [labGo, if_neg hcond]
      omega

/-- C4 counterexample: at `cexState` (ladder size 3) the loop executes 4
scoring passes, exceeding the claimed `ladderSize` cap. -/
theorem C4_iteration_cap_counterexample :
    cexState.bitrates.length = 3 ∧ labPassCount cexState 20 1000 4 = 4 := by
  refine ⟨rfl, ?_⟩
  simp [labPassCount, show cexState.bitrates.length = 3 from rfl, cex_run_20]

/-- C4 as amended: the look-ahead loop always terminates after at most
`ladderSize + 1` scoring passes (the cap the `maxIte` counter actually
enforces), returning the last computed quality. -/
theorem C4_loop_executes_at_most_ladderSize_succ_passes
    (bolaState : BolaState) (bufferLevel throughput segmentDuration : ℚ) :
    labPassCount bolaState bufferLevel throughput segmentDuration ≤
      bolaState.bitrates.length + 1 := by
  have h := labGo_passes_bound bolaState bufferLevel throughput segmentDuration
    bolaState.bitrates.length none none 0 bufferLevel 0
  simpa [labPassCount] using h

theorem loopPrev_eq_of_two_le (bolaState : BolaState)
    (bufferLevel throughput segmentDuration : ℚ) (k : ℕ) (h : 2 ≤ k) :
    loopPrev bolaState bufferLevel throughput segmentDuration k =
      bitAt bolaState (lookAheadQuality bolaState bufferLevel throughput segmentDuration (k - 2)) := by
  obtain ⟨j, rfl⟩ : ∃ j, k = j + 2 := ⟨k - 2, by omega⟩
  rfl

theorem bitAt_lookAheadQuality_ne_none (bolaState : BolaState)
    (bufferLevel throughput segmentDuration : ℚ) (hN : 0 < bolaState.bitrates.length) (j : ℕ) :
    bitAt bolaState (lookAheadQuality bolaState bufferLevel throughput segmentDuration j) ≠
      none := by
  have hlt : lookAheadQuality bolaState bufferLevel throughput segmentDuration j <
      bolaState.bitrates.length :=
    bestScan_snd_lt bolaState _ _ hN
  rw [bitAt, List.get?_eq_get hlt]
  exact fun h => Option.noConfusion h

/-- If the loop condition fails at the state after `k` passes, the loop returns
the previous pass's quality with counter `k`. -/
theorem labGoState_stop (bolaState : BolaState)
    (bufferLevel throughput segmentDuration : ℚ) (fuel k : ℕ)
    (hne : bitAt bolaState (lookAheadQuality bolaState bufferLevel throughput segmentDuration (k - 1)) ≠ none)
    (heq : bitAt bolaState (lookAheadQuality bolaState bufferLevel throughput segmentDuration (k - 1)) =
      loopPrev bolaState bufferLevel throughput segmentDuration k) :
    labGoState bolaState bufferLevel throughput segmentDuration fuel k =
      (lookAheadQuality bolaState bufferLevel throughput segmentDuration (k - 1), k) := by
  have hcond : ¬(bitAt bolaState (lookAheadQuality bolaState bufferLevel throughput segmentDuration (k - 1)) = none ∨
      bitAt bolaState (lookAheadQuality bolaState bufferLevel throughput segmentDuration (k - 1)) ≠
        loopPrev bolaState bufferLevel throughput segmentDuration k) := by
    push_neg
    exact ⟨hne, heq⟩
  cases fuel with
  | zero => simp only [labGoState, labGo, if_neg hcond]
  | succ f => simp only [labGoState, labGo, if_neg hcond]

/-- If the loop condition holds with exhausted fuel, one final pass executes. -/
theorem labGoState_final (bolaState : BolaState)
    (bufferLevel throughput segmentDuration : ℚ) (k : ℕ)
    (hcond : bitAt bolaState (lookAheadQuality bolaState bufferLevel throughput segmentDuration (k - 1)) = none ∨
      bitAt bolaState (lookAheadQuality bolaState bufferLevel throughput segmentDuration (k - 1)) ≠
        loopPrev bolaState bufferLevel throughput segmentDuration k) :
    labGoState bolaState bufferLevel throughput segmentDuration 0 k =
      (lookAheadQuality bolaState bufferLevel throughput segmentDuration k, k + 1) := by
  simp only [labGoState, labGo, if_pos hcond]
  rfl

/-- If the loop condition holds with fuel remaining, the loop advances to the
state after `k + 1` passes. -/
theorem labGoState_step (bolaState : BolaState)
    (bufferLevel throughput segmentDuration : ℚ) (fuel k : ℕ) (hk : 1 ≤ k)
    (hcond : bitAt bolaState (lookAheadQuality bolaState bufferLevel throughput segmentDuration (k - 1)) = none ∨
      bitAt bolaState (lookAheadQuality bolaState bufferLevel throughput segmentDuration (k - 1)) ≠
        loopPrev bolaState bufferLevel throughput segmentDuration k) :
    labGoState bolaState bufferLevel throughput segmentDuration (fuel + 1) k =
      labGoState bolaState bufferLevel throughput segmentDuration fuel (k + 1) := by
  simp only [labGoState, labGo, if_pos hcond]
  rw [loopPrev_eq_of_two_le bolaState bufferLevel throughput segmentDuration (k + 1) (by omega)]
  have h1 : k + 1 - 2 = k - 1 := by omega
  have h2 : k + 1 - 1 = k := by omega
  rw [h1, h2]
  rfl

/-- Full characterization of the loop from the state after `k ≥ 1` passes:
the result is the recurrence value at the final pass index, the pass counter is
bounded, an exit strictly before the cap happens exactly on a repeated bitrate,
and every executed pass beyond the second was preceded by a bitrate change. -/
theorem labGoState_char (bolaState : BolaState)
    (bufferLevel throughput segmentDuration : ℚ) (hN : 0 < bolaState.bitrates.length) :
    ∀ fuel k, 1 ≤ k →
      (labGoState bolaState bufferLevel throughput segmentDuration fuel k).1 =
        lookAheadQuality bolaState bufferLevel throughput segmentDuration
          ((labGoState bolaState bufferLevel throughput segmentDuration fuel k).2 - 1) ∧
      k ≤ (labGoState bolaState bufferLevel throughput segmentDuration fuel k).2 ∧
      (labGoState bolaState bufferLevel throughput segmentDuration fuel k).2 ≤ k + fuel + 1 ∧
      ((labGoState bolaState bufferLevel throughput segmentDuration fuel k).2 ≤ k + fuel →
        2 ≤ (labGoState bolaState bufferLevel throughput segmentDuration fuel k).2 ∧
        bitAt bolaState (lookAheadQuality bolaState bufferLevel throughput segmentDuration
            ((labGoState bolaState bufferLevel throughput segmentDuration fuel k).2 - 1)) =
          bitAt bolaState (lookAheadQuality bolaState bufferLevel throughput segmentDuration
            ((labGoState bolaState bufferLevel throughput segmentDuration fuel k).2 - 2))) ∧
      (∀ m, 2 ≤ m → k ≤ m →
        m + 1 ≤ (labGoState bolaState bufferLevel throughput segmentDuration fuel k).2 →
        bitAt bolaState (lookAheadQuality bolaState bufferLevel throughput segmentDuration (m - 1)) ≠
          bitAt bolaState (lookAheadQuality bolaState bufferLevel throughput segmentDuration (m - 2))) := by
  intro fuel
  induction fuel with
  | zero =>
    intro k hk
    have hne := bitAt_lookAheadQuality_ne_none bolaState bufferLevel throughput segmentDuration hN (k - 1)
    by_cases heq : bitAt bolaState (lookAheadQuality bolaState bufferLevel throughput segmentDuration (k - 1)) =
        loopPrev bolaState bufferLevel throughput segmentDuration k
    · -- repeated bitrate: the loop stops with counter k
      have hres := labGoState_stop bolaState bufferLevel throughput segmentDuration 0 k hne heq
      have hk2 : 2 ≤ k := by
        by_contra hlt
        have hk1 : k = 1 := by omega
        subst hk1
        exact hne (by simpa [loopPrev] using heq)
      rw [hres]
      refine ⟨by simp, le_refl k, by omega, ?_, ?_⟩
      · intro _
        refine ⟨hk2, ?_⟩
        simpa [loopPrev_eq_of_two_le bolaState bufferLevel throughput segmentDuration k hk2] using heq
      · intro m _ hm hm1
        omega
    · -- bitrate changed: one final pass runs, then the cap stops the loop
      have hres := labGoState_final bolaState bufferLevel throughput segmentDuration k (Or.inr heq)
      rw [hres]
      refine ⟨by simp, by omega, by omega, by omega, ?_⟩
      intro m h2m hkm hm1
      have hmk : m = k := by omega
      subst hmk
      have h2k := loopPrev_eq_of_two_le bolaState bufferLevel throughput segmentDuration m h2m
      rw [h2k] at heq
      exact heq
  | succ f ih =>
    intro k hk
    have hne := bitAt_lookAheadQuality_ne_none bolaState bufferLevel throughput segmentDuration hN (k - 1)
    by_cases heq : bitAt bolaState (lookAheadQuality bolaState bufferLevel throughput segmentDuration (k - 1)) =
        loopPrev bolaState bufferLevel throughput segmentDuration k
    · have hres := labGoState_stop bolaState bufferLevel throughput segmentDuration (f + 1) k hne heq
      have hk2 : 2 ≤ k := by
        by_contra hlt
        have hk1 : k = 1 := by omega
        subst hk1
        exact hne (by simpa [loopPrev] using heq)
      rw [hres]
      refine ⟨by simp, le_refl k, by omega, ?_, ?_⟩
      · intro _
        refine ⟨hk2, ?_⟩
        simpa [loopPrev_eq_of_two_le bolaState bufferLevel throughput segmentDuration k hk2] using heq
      · intro m _ hm hm1
        omega
    · have hres := labGoState_step bolaState bufferLevel throughput segmentDuration f k hk (Or.inr heq)
      have IH := ih (k + 1) (by omega)
      rw [hres]
      obtain ⟨IH1, IH2, IH3, IH4, IH5⟩ := IH
      refine ⟨IH1, by omega, by omega, ?_, ?_⟩
      · intro hcap
        exact IH4 (by omega)
      · intro m h2m hkm hm1
        rcases Nat.lt_or_ge m (k + 1) with hmlt | hmge
        · have hmk : m = k := by omega
          subst hmk
          have h2k := loopPrev_eq_of_two_le bolaState bufferLevel throughput segmentDuration m h2m
          rw [h2k] at heq
          exact heq
        · exact IH5 m h2m hmge hm1

/-- The loop's initial state performs its first pass unconditionally and lands
in the characterized state after one pass. -/
theorem labRun_eq_labGoState (bolaState : BolaState)
    (bufferLevel throughput segmentDuration : ℚ) (hN : 1 ≤ bolaState.bitrates.length) :
    labGo bolaState bufferLevel throughput segmentDuration
        bolaState.bitrates.length none none 0 bufferLevel 0 =
      labGoState bolaState bufferLevel throughput segmentDuration
        (bolaState.bitrates.length - 1) 1 := by
  obtain ⟨f, hf⟩ : ∃ f, bolaState.bitrates.length = f + 1 := ⟨bolaState.bitrates.length - 1, by omega⟩
  rw [hf]
  have hcond : (none : Option ℚ) = none ∨ (none : Option ℚ) ≠ none := Or.inl rfl
  simp only [labGo, if_pos hcond]
  simp only [labGoState, loopPrev]
  rfl

/-- C6.  The loop refines the claimed recurrence: the returned quality is the
recurrence value at the final pass; whenever the loop exits before the cap it
is because the chosen bitrate repeated the previous pass's bitrate; and every
pass after the second ran only because the bitrate had changed.  The working
level used by pass `k + 1` is, by definition of `lookAheadLevel`,
`bufferLevel + (1 - chosenBitrate / throughput / 1000) * segmentDuration`. -/
theorem C6_loop_projection_and_exit (bolaState : BolaState)
    (bufferLevel throughput segmentDuration : ℚ) (hN : 1 ≤ bolaState.bitrates.length) :
    getQualityFromBufferLevel bolaState bufferLevel throughput segmentDuration =
      lookAheadQuality bolaState bufferLevel throughput segmentDuration
        (labPassCount bolaState bufferLevel throughput segmentDuration - 1) ∧
    (labPassCount bolaState bufferLevel throughput segmentDuration ≤
        bolaState.bitrates.length →
      2 ≤ labPassCount bolaState bufferLevel throughput segmentDuration ∧
      bitAt bolaState (lookAheadQuality bolaState bufferLevel throughput segmentDuration
          (labPassCount bolaState bufferLevel throughput segmentDuration - 1)) =
        bitAt bolaState (lookAheadQuality bolaState bufferLevel throughput segmentDuration
          (labPassCount bolaState bufferLevel throughput segmentDuration - 2))) ∧
    (∀ m, 2 ≤ m → m + 1 ≤ labPassCount bolaState bufferLevel throughput segmentDuration →
      bitAt bolaState (lookAheadQuality bolaState bufferLevel throughput segmentDuration (m - 1)) ≠
        bitAt bolaState (lookAheadQuality bolaState bufferLevel throughput segmentDuration (m - 2))) := by
  have hrun := labRun_eq_labGoState bolaState bufferLevel throughput segmentDuration hN
  have hchar := labGoState_char bolaState bufferLevel throughput segmentDuration (by omega)
    (bolaState.bitrates.length - 1) 1 (le_refl 1)
  obtain ⟨H1, H2, H3, H4, H5⟩ := hchar
  unfold getQualityFromBufferLevel labPassCount
  rw [hrun]
  refine ⟨H1, ?_, ?_⟩
  · intro hcap
    exact H4 (by omega)
  · intro m h2m hm1
    exact H5 m h2m (by omega) hm1

/-- Witness for C6 at `cexState`, buffer level 15. -/
theorem C6_loop_projection_and_exit_witness :
    1 ≤ cexState.bitrates.length ∧
    getQualityFromBufferLevel cexState 15 1000 4 =
      lookAheadQuality cexState 15 1000 4 (labPassCount cexState 15 1000 4 - 1) :=
  ⟨by decide, (C6_loop_projection_and_exit cexState 15 1000 4 (by decide)).1⟩

/-- C7.  Retargeting with the cached stable buffer time is a no-op: the state
comes back bit-for-bit identical. -/
theorem C7_retarget_same_buffer_time_noop (bolaState : BolaState)
    (stableBufferTime bufferLevel : ℚ)
    (h : bolaState.stableBufferTime = stableBufferTime) :
    checkBolaStateStableBufferTime bolaState stableBufferTime bufferLevel =
      .ok bolaState := by
  simp [checkBolaStateStableBufferTime, h]

/-- Witness for C7 at the concrete state `cexState`. -/
theorem C7_retarget_same_buffer_time_noop_witness :
    checkBolaStateStableBufferTime cexState (70/3) 5 = .ok cexState :=
  C7_retarget_same_buffer_time_noop cexState (70/3) 5 rfl

/-- C8.  Retargeting with a changed stable buffer time recomputes the
constants; iff they differ from the cached ones the placeholder buffer becomes
`max(0, ((bufferLevel + placeholderBuffer - 10) * newVp / oldVp + 10) - bufferLevel)`,
otherwise nothing changes. -/
theorem C8_retarget_rescales_placeholder (bolaState : BolaState)
    (stableBufferTime bufferLevel : ℚ) (params : BolaParams)
    (hne : bolaState.stableBufferTime ≠ stableBufferTime)
    (hp : calculateBolaParameters stableBufferTime bolaState.bitrates bolaState.utilities =
      some params) :
    (params.Vp ≠ bolaState.Vp ∨ params.gp ≠ bolaState.gp →
      checkBolaStateStableBufferTime bolaState stableBufferTime bufferLevel =
        .ok { bolaState with
              stableBufferTime := stableBufferTime
              Vp := params.Vp
              gp := params.gp
              placeholderBuffer := max 0
                (((bufferLevel + bolaState.placeholderBuffer - 10) * params.Vp /
                  bolaState.Vp + 10) - bufferLevel) }) ∧
    (params.Vp = bolaState.Vp ∧ params.gp = bolaState.gp →
      checkBolaStateStableBufferTime bolaState stableBufferTime bufferLevel =
        .ok bolaState) := by
  constructor
  · intro hdiff
    have harith :
        (bufferLevel + bolaState.placeholderBuffer - MINIMUM_BUFFER_S) *
            (params.Vp / bolaState.Vp) + MINIMUM_BUFFER_S - bufferLevel =
          (bufferLevel + bolaState.placeholderBuffer - 10) * params.Vp /
            bolaState.Vp + 10 - bufferLevel := by
      rw [MINIMUM_BUFFER_S]
      ring
    simp only [checkBolaStateStableBufferTime, hp, if_pos hne, if_pos hdiff]
    rw [harith]
  · rintro ⟨h1, h2⟩
    have hnd : ¬(params.Vp ≠ bolaState.Vp ∨ params.gp ≠ bolaState.gp) := by
      push_neg
      exact ⟨h1, h2⟩
    simp only [checkBolaStateStableBufferTime, hp, if_pos hne, if_neg hnd]

/-- Witness for C8: retargeting `retargetState` to stable buffer time 24 at
buffer level 6 rescales the placeholder buffer by the claimed formula. -/
theorem C8_retarget_rescales_placeholder_witness :
    checkBolaStateStableBufferTime retargetState 24 6 =
      .ok { retargetState with
            stableBufferTime := 24
            Vp := (14 : ℚ)
            gp := (5/7 : ℚ)
            placeholderBuffer := max 0
              (((6 + retargetState.placeholderBuffer - 10) * 14 / retargetState.Vp + 10) - 6) } := by
  have hp : calculateBolaParameters 24 retargetState.bitrates retargetState.utilities =
      some { gp := 5/7, Vp := 14 } := by
    norm_num [calculateBolaParameters, highestUtilityIndex, retargetState, List.enum,
      MINIMUM_BUFFER_S, MINIMUM_BUFFER_PER_BITRATE_LEVEL_S]
  have h := (C8_retarget_rescales_placeholder retargetState 24 6 { gp := 5/7, Vp := 14 }
    (by norm_num [retargetState]) hp).1 (by norm_num [retargetState])
  exact h

theorem applyBolaOp_placeholder_nonneg (bolaState : BolaState) (op : BolaOp)
    (h : 0 ≤ bolaState.placeholderBuffer) :
    0 ≤ (applyBolaOp bolaState op).placeholderBuffer := by
  cases op with
  | clear => simp [applyBolaOp, clearBolaStateOnSeek]
  | retarget stableBufferTime bufferLevel =>
    simp only [applyBolaOp]
    by_cases h1 : bolaState.stableBufferTime ≠ stableBufferTime
    · cases hp : calculateBolaParameters stableBufferTime bolaState.bitrates
        bolaState.utilities with
      | none => simp [checkBolaStateStableBufferTime, h1, hp, h]
      | some params =>
        by_cases h2 : params.Vp ≠ bolaState.Vp ∨ params.gp ≠ bolaState.gp
        · simp [checkBolaStateStableBufferTime, h1, hp, h2, le_max_left]
        · simp [checkBolaStateStableBufferTime, h1, hp, h2, h]
    · simp [checkBolaStateStableBufferTime, h1, h]

theorem applyBolaOps_placeholder_nonneg (ops : List BolaOp) :
    ∀ bolaState : BolaState, 0 ≤ bolaState.placeholderBuffer →
      0 ≤ (applyBolaOps bolaState ops).placeholderBuffer := by
  induction ops with
  | nil => intro bolaState h; simpa [applyBolaOps] using h
  | cons op rest ih =>
    intro bolaState h
    have hstep := applyBolaOp_placeholder_nonneg bolaState op h
    simpa [applyBolaOps] using ih (applyBolaOp bolaState op) hstep

/-- C10.  A freshly created live track state has placeholder buffer 0, and no
sequence of clear-on-seek / retarget operations can make it negative. -/
theorem C10_placeholder_buffer_nonneg (ln : ℚ → ℚ) (stableBufferTime : ℚ)
    (bitrates : List ℚ) (bolaState : BolaState) (ops : List BolaOp)
    (hinit : Abandon.getInitialBolaState ln stableBufferTime bitrates =
      .active bolaState) :
    bolaState.placeholderBuffer = 0 ∧
    0 ≤ (applyBolaOps bolaState ops).placeholderBuffer := by
  have h0 : bolaState.placeholderBuffer = 0 := by
    simp only [Abandon.getInitialBolaState] at hinit
    split at hinit
    · exact absurd hinit (by simp)
    · have := AbanBolaState.active.inj hinit
      rw [← this]
      rfl
  exact ⟨h0, applyBolaOps_placeholder_nonneg ops bolaState (by rw [h0])⟩

/-- Witness for C10: a concrete two-tier creation followed by a retarget and a
clear keeps the placeholder buffer non-negative. -/
theorem C10_placeholder_buffer_nonneg_witness :
    Abandon.getInitialBolaState (fun x => x) 12 [100, 200] = .active createdState ∧
    0 ≤ (applyBolaOps createdState [BolaOp.retarget 30 6, BolaOp.clear]).placeholderBuffer := by
  have hinit : Abandon.getInitialBolaState (fun x => x) 12 [100, 200] = .active createdState := by
    norm_num [Abandon.getInitialBolaState, utilitiesFromBitrates, calculateBolaParameters,
      highestUtilityIndex, List.enum, MINIMUM_BUFFER_S, MINIMUM_BUFFER_PER_BITRATE_LEVEL_S,
      clearBolaStateOnSeek, createdState]
  exact ⟨hinit, (C10_placeholder_buffer_nonneg (fun x => x) 12 [100, 200] createdState
    [BolaOp.retarget 30 6, BolaOp.clear] hinit).2⟩

namespace Abandon

/-- No call ever returns an abandon commitment: the evaluation branch throws
(temporal dead zone) before line `abandonDict[fragmentInfo.id] = fragmentInfo`
can run, and every other exit is an explicit no-change. -/
theorem evaluateAbandon_no_commit (ln : ℚ → ℚ) (s5 : MonitorState) (fi5 : FragmentInfo)
    (ev : ProgressEvent) (fragmentID quality : ℕ) :
    (evaluateAbandon ln s5 fi5 ev).2 ≠ .ok (.abandonTo fragmentID quality) := by
  unfold evaluateAbandon
  repeat' split
  all_goals simp

theorem monitorSample_no_commit (ln : ℚ → ℚ) (s4 : MonitorState) (reqIndexVal : ℕ)
    (fi3 : FragmentInfo) (ev : ProgressEvent) (fragmentID quality : ℕ) :
    (monitorSample ln s4 reqIndexVal fi3 ev).2 ≠ .ok (.abandonTo fragmentID quality) := by
  unfold monitorSample
  repeat' split
  all_goals first
    | exact evaluateAbandon_no_commit ln _ _ ev fragmentID quality
    | simp

theorem trackProgress_no_commit (ln : ℚ → ℚ) (s1 : MonitorState) (reqIndexVal : ℕ)
    (fragmentInfo : FragmentInfo) (ev : ProgressEvent) (fragmentID quality : ℕ) :
    (trackProgress ln s1 reqIndexVal fragmentInfo ev).2 ≠ .ok (.abandonTo fragmentID quality) := by
  unfold trackProgress
  exact monitorSample_no_commit ln _ _ _ ev fragmentID quality

theorem shouldAbandon_no_commit (ln : ℚ → ℚ) (s : MonitorState) (ev : ProgressEvent)
    (fragmentID quality : ℕ) :
    (shouldAbandon ln s ev).2 ≠ .ok (.abandonTo fragmentID quality) := by
  unfold shouldAbandon
  repeat' split
  all_goals first
    | exact trackProgress_no_commit ln _ _ _ ev fragmentID quality
    | (simp; done)
    | (dsimp only
       split <;> first
        | exact trackProgress_no_commit ln _ _ _ ev fragmentID quality
        | simp)

theorem commitList_eq_nil (ln : ℚ → ℚ) :
    ∀ (events : List ProgressEvent) (s : MonitorState), commitList ln s events = [] := by
  intro events
  induction events with
  | nil => intro s; rfl
  | cons ev rest ih =>
    intro s
    unfold commitList
    cases hstep : (shouldAbandon ln s ev).2 with
    | thrown =>
      simp only [commitList, hstep]
      exact ih _
    | ok d =>
      cases d with
      | noChange =>
        simp only [commitList, hstep]
        exact ih _
      | abandonTo fragmentID quality =>
        exact absurd hstep (shouldAbandon_no_commit ln s ev fragmentID quality)

theorem lookupFrag_setFrag_self (d : List (ℕ × FragmentInfo)) (i : ℕ) (fi : FragmentInfo) :
    lookupFrag (setFrag d i fi) i = some fi := by
  induction d with
  | nil => simp [setFrag, lookupFrag]
  | cons hd rest ih =>
    obtain ⟨j, g⟩ := hd
    by_cases hj : j = i
    · simp [setFrag, lookupFrag, hj]
    · simp only [setFrag, lookupFrag, if_neg hj]
      simpa [lookupFrag, hj] using ih

theorem hasOwnAbandon_of_mem (abandonDict : List ℕ) (reqIndexVal : ℕ)
    (h : reqIndexVal ∈ abandonDict) :
    hasOwnAbandon abandonDict (some reqIndexVal) = true := by
  simp [hasOwnAbandon, List.contains, List.elem_iff, h]

/-- An already-flagged fragment id never reaches the throwing branch: the
`!abandonDict.hasOwnProperty(...)` test fails and the call falls through to
the no-change return. -/
theorem evaluateAbandon_mem_noChange (ln : ℚ → ℚ) (s5 : MonitorState) (fi5 : FragmentInfo)
    (ev : ProgressEvent) (reqIndexVal : ℕ)
    (hid : fi5.id = some reqIndexVal) (hmem : reqIndexVal ∈ s5.abandonDict) :
    (evaluateAbandon ln s5 fi5 ev).2 = .ok .noChange := by
  unfold evaluateAbandon
  split
  · rfl
  · rw [hid, hasOwnAbandon_of_mem s5.abandonDict reqIndexVal hmem]
    simp

theorem monitorSample_mem_noChange (ln : ℚ → ℚ) (s4 : MonitorState) (reqIndexVal : ℕ)
    (fi3 : FragmentInfo) (ev : ProgressEvent)
    (hid : fi3.id = some reqIndexVal) (hmem : reqIndexVal ∈ s4.abandonDict) :
    (monitorSample ln s4 reqIndexVal fi3 ev).2 = .ok .noChange := by
  unfold monitorSample
  split
  · exact evaluateAbandon_mem_noChange ln _ _ ev reqIndexVal hid hmem
  · split <;> rfl

theorem trackProgress_mem_noChange (ln : ℚ → ℚ) (s1 : MonitorState) (reqIndexVal : ℕ)
    (fragmentInfo : FragmentInfo) (ev : ProgressEvent)
    (hfbt : fragmentInfo.firstByteTime = none) (hmem : reqIndexVal ∈ s1.abandonDict) :
    (trackProgress ln s1 reqIndexVal fragmentInfo ev).2 = .ok .noChange := by
  unfold trackProgress
  have hcond : (fragmentInfo.firstByteTime = none) = True := by simp [hfbt]
  simp only [hcond, if_true]
  refine monitorSample_mem_noChange ln _ reqIndexVal _ ev ?_ ?_
  · simp
  · split <;> simpa using hmem

/-- C9.  Across any notification sequence the monitor never commits the same
fragment id twice and never commits while the current quality is 0 (in this
source revision no commitment can happen at all: the evaluation branch throws
before `abandonDict` is written); moreover a notification for a request whose
id is already in `abandonDict` always returns a no-change decision. -/
theorem C9_never_recommit_never_lowest :
    (∀ (ln : ℚ → ℚ) (s : MonitorState) (events : List ProgressEvent),
      ((commitList ln s events).map Prod.fst).Nodup ∧
      ∀ p ∈ commitList ln s events, p.2 ≠ 0) ∧
    (∀ (ln : ℚ → ℚ) (s : MonitorState) (ev : ProgressEvent) (reqIndexVal : ℕ),
      ev.reqIndex = some reqIndexVal →
      reqIndexVal ∈ s.abandonDict →
      (∀ fi, lookupFrag s.fragmentDict reqIndexVal = some fi →
        (fi.id = none → fi.firstByteTime = none) ∧
        (fi.id = none ∨ fi.id = some reqIndexVal)) →
      (shouldAbandon ln s ev).2 = .ok .noChange) := by
  constructor
  · intro ln s events
    rw [commitList_eq_nil]
    exact ⟨List.nodup_nil, fun p hp => absurd hp (List.not_mem_nil p)⟩
  · intro ln s ev reqIndexVal hreq hmem hinv
    unfold shouldAbandon
    by_cases hcap : ¬ev.hasCapabilities
    · simp [hcap]
    · rw [if_neg hcap, hreq]
      cases hlook : lookupFrag s.fragmentDict reqIndexVal with
      | some fi =>
        simp only [hlook]
        obtain ⟨hfbt_of_none, hid⟩ := hinv fi hlook
        cases hid with
        | inl hid_none =>
          by_cases hfbd : ev.firstByteDate = none
          · simp [hfbd]
          · rw [if_neg (by simp [hfbd, hid_none, hasOwnAbandon])]
            exact trackProgress_mem_noChange ln s reqIndexVal _ ev
              (by simpa [hid_none] using hfbt_of_none hid_none) hmem
        | inr hid_some =>
          rw [if_pos (Or.inr (by simp [hid_some, hasOwnAbandon_of_mem _ _ hmem]))]
      | none =>
        simp only [hlook, lookupFrag_setFrag_self]
        by_cases hfbd : ev.firstByteDate = none
        · simp [hfbd]
        · rw [if_neg (by simp [hfbd, emptyFragmentInfo, hasOwnAbandon])]
          exact trackProgress_mem_noChange ln _ reqIndexVal _ ev rfl hmem

/-- Evaluating the monitor from its reset state over `crashEvents`: the first
four calls return no-change decisions and the fifth throws (temporal dead
zone on `segmentDuration`). -/
theorem crash_run :
    (runMonitor (fun x => x) resetMonitorState crashEvents).2 =
      [.ok .noChange, .ok .noChange, .ok .noChange, .ok .noChange, .thrown] := by
  norm_num [Option.some_ne_none, ne_eq, List.mem_cons, List.not_mem_nil,
    runMonitor, shouldAbandon, trackProgress, monitorSample, evaluateAbandon,
    getBolaState, lookupFrag, setFrag, emptyFragmentInfo, hasOwnAbandon, jsRound, toFixed2,
    crashEvent, crashEvents, resetMonitorState, MIN_LENGTH_TO_AVERAGE, GRACE_TIME_THRESHOLD,
    ABANDON_MULTIPLIER, Abandon.getInitialBolaState, utilitiesFromBitrates,
    calculateBolaParameters, highestUtilityIndex, List.enum, MINIMUM_BUFFER_S,
    MINIMUM_BUFFER_PER_BITRATE_LEVEL_S, clearBolaStateOnSeek, checkBolaStateStableBufferTime]

end Abandon

/-- Witness for C9: with fragment 7 already in the abandoned set, a further
notification for it returns a no-change decision. -/
theorem C9_never_recommit_never_lowest_witness :
    (Abandon.shouldAbandon (fun x => x) Abandon.abandonedMonitorState Abandon.abandonedEvent).2 =
      .ok .noChange := by
  refine Abandon.C9_never_recommit_never_lowest.2 (fun x => x)
    Abandon.abandonedMonitorState Abandon.abandonedEvent 7 rfl (by simp [Abandon.abandonedMonitorState]) ?_
  intro fi hfi
  simp [Abandon.abandonedMonitorState, Abandon.lookupFrag] at hfi

/-- C1.  Both entry points can propagate an exception to the caller, contrary
to the always-return-a-decision contract: `getMaxIndex` on a single-bitrate
ladder throws a `TypeError` while building the initial state (`params` is
`null` and the variant has no guard); `shouldAbandon` throws a
`ReferenceError` on every execution of the abandonment-evaluation branch
(`segmentDuration` is read in its temporal dead zone). -/
theorem C1_entry_points_can_throw :
    (∀ (ln : ℚ → ℚ) (stableBufferTime b : ℚ),
      Part000.getInitialBolaState ln stableBufferTime [b] = .thrown) ∧
    (Abandon.runMonitor (fun x => x) Abandon.resetMonitorState Abandon.crashEvents).2 =
      [.ok .noChange, .ok .noChange, .ok .noChange, .ok .noChange, .thrown] := by
  constructor
  · intro ln stableBufferTime b
    unfold Part000.getInitialBolaState
    norm_num [utilitiesFromBitrates, calculateBolaParameters, highestUtilityIndex, List.enum]
  · exact Abandon.crash_run

end DashLAB
